import Mathlib

/-!
Shallow embedding of the metric-calculation core of the
schwab-historical-data-parser repository
(`src/schwab_analysis/analysis.py`): the column transforms of
`calculate_metrics` and the claim-relevant parts of
`generate_summary_statistics`.

Conventions of the embedding:
* A pandas float column is a `List (Option ℚ)`; `none` is the NaN
  ("undefined") marker, `some q` a finite value.  Columns that can never
  hold NaN are plain `List ℚ`.
* The date index is a `List ℤ` of day ordinals, so the Python expression
  `(df.index[-1] - df.index[0]).days` becomes subtraction of the first
  ordinal from the last.
* Exact rational arithmetic stands in for IEEE doubles.  The one place the
  Python code deliberately runs through non-finite float values
  (`rs = avg_gain / avg_loss` with a zero denominator, and the subsequent
  `rsi = 100 - 100 / (1 + rs)`) is translated cell-wise, with the IEEE
  conventions spelled out at the definition (`rsiCell`).
* Fallible code becomes `Except String`: a missing `close` column raises
  `KeyError` in `calculate_metrics`; an empty index raises `IndexError`
  and a zero calendar span raises `ZeroDivisionError` in
  `generate_summary_statistics`.
* The columns `ma_20`, `ma_50`, `ma_200`, `volatility`, `upper_band`,
  `lower_band` and the summary fields built from them are not referenced
  by any claim and are omitted from the embedding (the rolling standard
  deviation would force every cell into `ℝ`); none of the omitted code
  can raise for a pipeline-produced frame, so the error behaviour modelled
  below is complete.
-/

/-- `result['close'].pct_change() * 100` (analysis.py line 23): NaN in the
first row, then the relative change against the previous row, times 100.
Modelled by pairing each row with its predecessor via `zipWith` on the
list and its tail. -/
def dailyReturn (c : List ℚ) : List (Option ℚ) :=
  match c with
  | [] => []
  | _ :: _ =>
      none :: List.zipWith (fun prev cur => some ((cur / prev - 1) * 100)) c c.tail

/-- Running product of a float column under pandas `cumprod` semantics
(default `skipna=True`): a NaN cell stays NaN in the output, and the
running accumulator simply skips it. -/
def cumprodAux (acc : ℚ) : List (Option ℚ) → List (Option ℚ)
  | [] => []
  | none :: rest => none :: cumprodAux acc rest
  | some v :: rest => some (acc * v) :: cumprodAux (acc * v) rest

/-- `(1 + result['daily_return'] / 100).cumprod() - 1` (line 26). -/
def cumulativeReturn (c : List ℚ) : List (Option ℚ) :=
  (cumprodAux 1 ((dailyReturn c).map (Option.map fun r => 1 + r / 100))).map
    (Option.map fun p => p - 1)

/-- `result['cumulative_return'] * 100` (line 27). -/
def cumulativeReturnPct (c : List ℚ) : List (Option ℚ) :=
  (cumulativeReturn c).map (Option.map fun v => v * 100)

/-- `result['close'].cummax()` (line 42): cell `t` is the running maximum
of the close column over rows `0..t` inclusive, written as a left fold of
`max` over the prefix (seeded with the head, which belongs to every
prefix). -/
def cummax (xs : List ℚ) : List ℚ :=
  (List.range xs.length).map fun t => (xs.take (t + 1)).foldl max (xs.headD 0)

/-- `(result['close'] / result['peak'] - 1) * 100` (line 43). -/
def drawdown (c : List ℚ) : List ℚ :=
  List.zipWith (fun cl pk => (cl / pk - 1) * 100) c (cummax c)

/-- `delta = result['close'].diff()` (line 46): NaN in the first row, then
the difference against the previous row. -/
def priceDelta (c : List ℚ) : List (Option ℚ) :=
  match c with
  | [] => []
  | _ :: _ => none :: List.zipWith (fun prev cur => some (cur - prev)) c c.tail

/-- `gain = delta.where(delta > 0, 0)` (line 47): a cell keeps its value
when it is strictly positive and is replaced by `0` otherwise.  The NaN
cell fails the comparison (`NaN > 0` is false in IEEE), so it too becomes
`0`; the resulting column is NaN-free. -/
def gain (c : List ℚ) : List ℚ :=
  (priceDelta c).map fun d =>
    match d with
    | some v => if 0 < v then v else 0
    | none => 0

/-- `loss = -delta.where(delta < 0, 0)` (line 48): the negated value where
the delta is strictly negative, `0` otherwise (NaN again fails the
comparison and becomes `0`). -/
def loss (c : List ℚ) : List ℚ :=
  (priceDelta c).map fun d =>
    match d with
    | some v => if v < 0 then -v else 0
    | none => 0

/-- `xs.rolling(window=n).mean()` on a NaN-free column: cell `t` is NaN
until the window is full (`t < n - 1`) and afterwards the arithmetic mean
of the `n` cells ending at `t` inclusive. -/
def rollingMean (n : ℕ) (xs : List ℚ) : List (Option ℚ) :=
  (List.range xs.length).map fun t =>
    if n ≤ t + 1 then some ((((xs.take (t + 1)).drop (t + 1 - n)).sum) / (n : ℚ))
    else none

/-- `avg_gain = gain.rolling(window=14).mean()` (line 50). -/
def avgGain (c : List ℚ) : List (Option ℚ) := rollingMean 14 (gain c)

/-- `avg_loss = loss.rolling(window=14).mean()` (line 51). -/
def avgLoss (c : List ℚ) : List (Option ℚ) := rollingMean 14 (loss c)

/-- One cell of `rs = avg_gain / avg_loss; rsi = 100 - (100 / (1 + rs))`
(lines 53-54), under IEEE float conventions.  With either input NaN the
result is NaN.  With a zero denominator: `0 / 0` is NaN, so `rsi` is NaN;
`g / 0` for `g ≠ 0` is infinite, `100 / (1 + rs)` is then `0` and `rsi`
is exactly `100` (both inputs are means of non-negative columns, so the
negative-infinity branch never arises in the pipeline).  Otherwise the
formula is evaluated exactly; in the pipeline `g / l ≥ 0`, so the
denominator `1 + g / l` is never zero. -/
def rsiCell (g l : Option ℚ) : Option ℚ :=
  match g, l with
  | some g, some l =>
      if l = 0 then (if g = 0 then none else some 100)
      else some (100 - 100 / (1 + g / l))
  | _, _ => none

/-- `result['rsi']` (line 54), combining the two rolling averages
cell-wise. -/
def rsi (c : List ℚ) : List (Option ℚ) :=
  List.zipWith rsiCell (avgGain c) (avgLoss c)

/-- The raw input DataFrame handed to `calculate_metrics`: a date index
and a possibly-missing `close` column (indexing a missing column raises
`KeyError` in pandas). -/
structure RawFrame where
  dates : List ℤ
  closeCol : Option (List ℚ)

/-- The DataFrame returned by `calculate_metrics`: the input plus the
derived columns the claims refer to, one cell per input row. -/
structure EnrichedFrame where
  dates : List ℤ
  close : List ℚ
  daily_return : List (Option ℚ)
  cumulative_return : List (Option ℚ)
  cumulative_return_pct : List (Option ℚ)
  peak : List ℚ
  drawdown : List ℚ
  avg_gain : List (Option ℚ)
  avg_loss : List (Option ℚ)
  rsi : List (Option ℚ)

/-- The column assembly of `calculate_metrics` (lines 20-56) once the
`close` column has been found: every derived column is a pure function of
the close column, and the index is carried through unchanged. -/
def enrich (dates : List ℤ) (c : List ℚ) : EnrichedFrame :=
  { dates := dates
    close := c
    daily_return := dailyReturn c
    cumulative_return := cumulativeReturn c
    cumulative_return_pct := cumulativeReturnPct c
    peak := cummax c
    drawdown := drawdown c
    avg_gain := avgGain c
    avg_loss := avgLoss c
    rsi := rsi c }

/-- `calculate_metrics(df)` (analysis.py lines 9-56).  The first column
access `result['close']` raises `KeyError` when the column is absent;
nothing in the function inspects or validates the date index. -/
def calculate_metrics (df : RawFrame) : Except String EnrichedFrame :=
  match df.closeCol with
  | none => .error "KeyError: close"
  | some c => .ok (enrich df.dates c)

/-- `(df['daily_return'] > 0).mean() * 100` (line 99): the comparison
maps every cell to a boolean (NaN compares false), and `.mean()` of the
boolean column divides the count of `true` cells by the total row count,
undefined cells included. -/
def positiveDaysPct (dr : List (Option ℚ)) : ℚ :=
  (((dr.map fun d =>
      match d with
      | some v => decide (0 < v)
      | none => false).count true : ℚ) / (dr.length : ℚ)) * 100

/-- Positive-days percentage as the spec sentence words it, for comparison
with `positiveDaysPct`: the fraction of defined daily-return cells that
are strictly positive, times 100 (the undefined row-0 cell excluded from
the denominator). -/
def specPositiveDaysPct (dr : List (Option ℚ)) : ℚ :=
  (((dr.countP fun d =>
      match d with
      | some v => decide (0 < v)
      | none => false) : ℚ) / ((dr.countP Option.isSome) : ℚ)) * 100

/-- The scalar record built by `generate_summary_statistics`, restricted
to the fields the claims refer to. -/
structure SummaryReport where
  start_date : ℤ
  end_date : ℤ
  start_price : ℚ
  end_price : ℚ
  total_return_pct : ℚ
  annualized_return_pct : ℝ
  positive_days_pct : ℚ

/-- `(df.index[-1] - df.index[0]).days` (line 78): the calendar-day span
between the first and last index entries. -/
def elapsedDays (df : EnrichedFrame) : ℤ :=
  df.dates.getLastD 0 - df.dates.headD 0

/-- `generate_summary_statistics(df)` (lines 59-122), restricted to the
claim-relevant fields.  `df.index[0]` raises `IndexError` on an empty
frame; `365 / days` is Python integer-operand division and raises
`ZeroDivisionError` when the span is zero; afterwards the annualized
return is `((1 + total_return/100) ** (365/days) - 1) * 100` with a real
exponent (the zero-span test is hoisted above the total-return expression
here; that expression is total, so the observable behaviour is
unchanged).  No other statement of the function can raise for a
pipeline-produced frame once the span is non-zero (`idxmax` needs one
defined daily return, which a non-zero span guarantees; the numpy float
divisions produce infinities, not exceptions). -/
noncomputable def generate_summary_statistics (df : EnrichedFrame) :
    Except String SummaryReport :=
  if df.dates = [] then .error "IndexError: index 0 is out of bounds"
  else if elapsedDays df = 0 then .error "ZeroDivisionError: division by zero"
  else
    .ok { start_date := df.dates.headD 0
          end_date := df.dates.getLastD 0
          start_price := df.close.headD 0
          end_price := df.close.getLastD 0
          total_return_pct := (df.close.getLastD 0 / df.close.headD 0 - 1) * 100
          annualized_return_pct :=
            ((1 + (((df.close.getLastD 0 / df.close.headD 0 - 1) * 100 : ℚ) : ℝ) / 100) ^
              ((365 : ℝ) / (elapsedDays df : ℝ)) - 1) * 100
          positive_days_pct := positiveDaysPct df.daily_return }


/-! ### Helper lemmas about the column transforms -/

lemma length_dailyReturn (cs : List ℚ) : (dailyReturn cs).length = cs.length := by
  cases cs with
  | nil => rfl
  | cons a rest => simp [dailyReturn]

lemma length_priceDelta (cs : List ℚ) : (priceDelta cs).length = cs.length := by
  cases cs with
  | nil => rfl
  | cons a rest => simp [priceDelta]

lemma dailyReturn_getElem_zero (cs : List ℚ) (h : 0 < (dailyReturn cs).length) :
    (dailyReturn cs)[0] = none := by
  cases cs with
  | nil => simp [dailyReturn] at h
  | cons a rest => rfl

lemma dailyReturn_getElem_succ (cs : List ℚ) (t : ℕ) (h : t + 1 < cs.length)
    (hd : t + 1 < (dailyReturn cs).length) :
    (dailyReturn cs)[t + 1] = some ((cs[t + 1] / cs[t] - 1) * 100) := by
  cases cs with
  | nil => simp at h
  | cons a rest =>
    simp only [dailyReturn, List.getElem_cons_succ]
    rw [List.getElem_zipWith]
    simp

lemma priceDelta_getElem_zero (cs : List ℚ) (h : 0 < (priceDelta cs).length) :
    (priceDelta cs)[0] = none := by
  cases cs with
  | nil => simp [priceDelta] at h
  | cons a rest => rfl

lemma priceDelta_getElem_succ (cs : List ℚ) (t : ℕ) (h : t + 1 < cs.length)
    (hd : t + 1 < (priceDelta cs).length) :
    (priceDelta cs)[t + 1] = some (cs[t + 1] - cs[t]) := by
  cases cs with
  | nil => simp at h
  | cons a rest =>
    simp only [priceDelta, List.getElem_cons_succ]
    rw [List.getElem_zipWith]
    simp

lemma length_cumprodAux (acc : ℚ) (xs : List (Option ℚ)) :
    (cumprodAux acc xs).length = xs.length := by
  induction xs generalizing acc with
  | nil => rfl
  | cons x rest ih => cases x <;> simp [cumprodAux, ih]

lemma cumprodAux_map_some_getElem (vs : List ℚ) (acc : ℚ) (t : ℕ) (h : t < vs.length)
    (hc : t < (cumprodAux acc (vs.map some)).length) :
    (cumprodAux acc (vs.map some))[t] = some (acc * (vs.take (t + 1)).prod) := by
  induction vs generalizing acc t with
  | nil => simp at h
  | cons v rest ih =>
    cases t with
    | zero => simp [cumprodAux]
    | succ t =>
      simp only [List.map_cons, cumprodAux, List.getElem_cons_succ]
      rw [ih (acc * v) t (by simpa using h)
        (by rw [length_cumprodAux, List.length_map]; simpa using h)]
      rw [List.take_succ_cons, List.prod_cons, mul_assoc]


lemma dailyReturn_cons (a : ℚ) (rest : List ℚ) :
    dailyReturn (a :: rest) =
      none :: (List.zipWith (fun prev cur => (cur / prev - 1) * 100) (a :: rest) rest).map some := by
  simp only [dailyReturn, List.tail_cons, List.map_zipWith]

lemma map_some_map_optionMap (zw : List ℚ) (h : ℚ → ℚ) :
    (zw.map some).map (Option.map h) = (zw.map h).map some := by
  simp only [List.map_map]
  rfl

lemma length_cumulativeReturn (cs : List ℚ) :
    (cumulativeReturn cs).length = cs.length := by
  simp [cumulativeReturn, length_cumprodAux, length_dailyReturn]

lemma length_cumulativeReturnPct (cs : List ℚ) :
    (cumulativeReturnPct cs).length = cs.length := by
  simp [cumulativeReturnPct, length_cumulativeReturn]

lemma cumulativeReturn_getElem_zero (cs : List ℚ) (h : 0 < (cumulativeReturn cs).length) :
    (cumulativeReturn cs)[0] = none := by
  cases cs with
  | nil => simp [cumulativeReturn, dailyReturn, cumprodAux] at h
  | cons a rest => simp [cumulativeReturn, dailyReturn_cons, cumprodAux]

lemma cumulativeReturn_cons (a : ℚ) (rest : List ℚ) :
    cumulativeReturn (a :: rest) =
      none :: (cumprodAux 1 (((List.zipWith (fun prev cur => (cur / prev - 1) * 100)
          (a :: rest) rest).map (fun r => 1 + r / 100)).map some)).map
        (Option.map fun p => p - 1) := by
  show (cumprodAux 1 ((dailyReturn (a :: rest)).map (Option.map fun r => 1 + r / 100))).map
    (Option.map fun p => p - 1) = _
  rw [dailyReturn_cons, List.map_cons, Option.map_none', map_some_map_optionMap]
  rfl

lemma cumulativeReturn_getElem_succ (cs : List ℚ) (t : ℕ) (h : t + 1 < cs.length)
    (hb : t + 1 < (cumulativeReturn cs).length) :
    (cumulativeReturn cs)[t + 1] =
      some ((((List.zipWith (fun prev cur => (cur / prev - 1) * 100) cs cs.tail).map
        (fun r => 1 + r / 100)).take (t + 1)).prod - 1) := by
  cases cs with
  | nil => simp at h
  | cons a rest =>
    simp only [cumulativeReturn_cons, List.getElem_cons_succ, List.getElem_map,
      List.tail_cons]
    rw [cumprodAux_map_some_getElem _ 1 t
      (by simp only [List.length_map, List.length_zipWith, List.length_cons] at h ⊢; omega)
      (by simp only [length_cumprodAux, List.length_map, List.length_zipWith,
        List.length_cons] at hb ⊢; simp at h; omega)]
    simp

lemma ratio_map_eq (cs : List ℚ) :
    (List.zipWith (fun prev cur => (cur / prev - 1) * 100) cs cs.tail).map
        (fun r => 1 + r / 100) =
      List.zipWith (fun prev cur => cur / prev) cs cs.tail := by
  rw [List.map_zipWith]
  congr 1
  funext prev cur
  ring

lemma ratio_take_prod : ∀ (t : ℕ) (cs : List ℚ), (∀ x ∈ cs, 0 < x) → t < cs.length →
    ((List.zipWith (fun prev cur => cur / prev) cs cs.tail).take t).prod =
      cs.getD t 0 / cs.getD 0 0 := by
  intro t
  induction t with
  | zero =>
    intro cs hpos h
    cases cs with
    | nil => simp at h
    | cons a rest =>
      have ha : a ≠ 0 := ne_of_gt (hpos a (by simp))
      simp [List.getD_cons_zero, div_self ha]
  | succ t ih =>
    intro cs hpos h
    cases cs with
    | nil => simp at h
    | cons a rest =>
      cases rest with
      | nil => simp at h
      | cons b rest2 =>
        have ha : a ≠ 0 := ne_of_gt (hpos a (by simp))
        have hb : b ≠ 0 := ne_of_gt (hpos b (by simp))
        simp only [List.tail_cons, List.zipWith_cons_cons, List.take_succ_cons,
          List.prod_cons, List.getD_cons_succ]
        have hrec := ih (b :: rest2) (fun x hx => hpos x (List.mem_cons_of_mem a hx))
          (by simpa using h)
        simp only [List.tail_cons] at hrec
        rw [hrec]
        field_simp
        ring

lemma cumulativeReturn_getElem_succ_value (cs : List ℚ) (hpos : ∀ x ∈ cs, 0 < x) (t : ℕ)
    (h : t + 1 < cs.length) (hb : t + 1 < (cumulativeReturn cs).length) :
    (cumulativeReturn cs)[t + 1] = some (cs.getD (t + 1) 0 / cs.getD 0 0 - 1) := by
  rw [cumulativeReturn_getElem_succ cs t h hb, ratio_map_eq,
    ratio_take_prod (t + 1) cs hpos h]

lemma take_prod_eq_prod_range (l : List ℚ) (t : ℕ) (h : t ≤ l.length) :
    (l.take t).prod = ∏ i ∈ Finset.range t, l.getD i 1 := by
  induction t with
  | zero => simp
  | succ t ih =>
    rw [List.prod_take_succ _ t (by omega), ih (by omega), Finset.prod_range_succ,
      List.getD_eq_getElem _ _ (by omega)]

lemma mapped_ratio_getD (cs : List ℚ) (i : ℕ) (h : i + 1 < cs.length) :
    ((List.zipWith (fun prev cur => (cur / prev - 1) * 100) cs cs.tail).map
      (fun r => 1 + r / 100)).getD i 1 =
      1 + ((dailyReturn cs).getD (i + 1) none).getD 0 / 100 := by
  have hd : i + 1 < (dailyReturn cs).length := by rw [length_dailyReturn]; exact h
  have hm : i < ((List.zipWith (fun prev cur : ℚ => (cur / prev - 1) * 100) cs cs.tail).map
      (fun r => 1 + r / 100)).length := by
    simp only [List.length_map, List.length_zipWith, List.length_tail]
    omega
  rw [List.getD_eq_getElem _ _ hm, List.getD_eq_getElem _ _ hd,
    dailyReturn_getElem_succ cs i h hd]
  rw [List.getElem_map, List.getElem_zipWith, List.getElem_tail]
  simp

lemma le_foldl_max : ∀ (l : List ℚ) (z : ℚ), z ≤ l.foldl max z := by
  intro l
  induction l with
  | nil => intro z; exact le_refl z
  | cons a r ih => intro z; exact le_trans (le_max_left z a) (ih (max z a))

lemma foldl_max_le_of_mem : ∀ (l : List ℚ) (z x : ℚ), x ∈ l → x ≤ l.foldl max z := by
  intro l
  induction l with
  | nil => intro z x hx; simp at hx
  | cons a r ih =>
    intro z x hx
    rcases List.mem_cons.mp hx with rfl | hmem
    · exact le_trans (le_max_right z x) (le_foldl_max r (max z x))
    · exact ih (max z a) x hmem

lemma foldl_max_mem : ∀ (l : List ℚ) (z : ℚ), l.foldl max z = z ∨ l.foldl max z ∈ l := by
  intro l
  induction l with
  | nil => intro z; left; rfl
  | cons a r ih =>
    intro z
    rcases ih (max z a) with h | h
    · rcases max_cases z a with ⟨h1, _⟩ | ⟨h1, _⟩
      · left
        show r.foldl max (max z a) = z
        rw [h, h1]
      · right
        show r.foldl max (max z a) ∈ a :: r
        rw [h, h1]
        exact List.mem_cons_self a r
    · right
      exact List.mem_cons_of_mem a h

lemma length_cummax (cs : List ℚ) : (cummax cs).length = cs.length := by
  simp [cummax]

lemma cummax_getElem (cs : List ℚ) (t : ℕ) (h : t < cs.length)
    (hc : t < (cummax cs).length) :
    (cummax cs)[t] = (cs.take (t + 1)).foldl max (cs.headD 0) := by
  simp [cummax]

lemma headD_mem_take (cs : List ℚ) (t : ℕ) (h : 0 < cs.length) :
    cs.headD 0 ∈ cs.take (t + 1) := by
  cases cs with
  | nil => simp at h
  | cons a rest => simp [List.take_succ_cons]

lemma cummax_mem (cs : List ℚ) (t : ℕ) (h : t < cs.length) (hc : t < (cummax cs).length) :
    (cummax cs)[t] ∈ cs.take (t + 1) := by
  rw [cummax_getElem cs t h hc]
  rcases foldl_max_mem (cs.take (t + 1)) (cs.headD 0) with he | hm
  · rw [he]
    exact headD_mem_take cs t (by omega)
  · exact hm

lemma cummax_is_ub (cs : List ℚ) (t : ℕ) (h : t < cs.length)
    (hc : t < (cummax cs).length) :
    ∀ x ∈ cs.take (t + 1), x ≤ (cummax cs)[t] := by
  rw [cummax_getElem cs t h hc]
  intro x hx
  exact foldl_max_le_of_mem _ _ x hx

lemma foldl_max_take_mono (l : List ℚ) (z : ℚ) (t : ℕ) :
    (l.take (t + 1)).foldl max z ≤ (l.take (t + 2)).foldl max z := by
  have he : l.take (t + 2) = l.take (t + 1) ++ l[t + 1]?.toList := List.take_succ
  rw [he, List.foldl_append]
  exact le_foldl_max _ _

lemma cummax_mono (cs : List ℚ) (t : ℕ) (h : t + 1 < cs.length)
    (hc : t < (cummax cs).length) (hc2 : t + 1 < (cummax cs).length) :
    (cummax cs)[t] ≤ (cummax cs)[t + 1] := by
  rw [cummax_getElem cs t (by omega) hc, cummax_getElem cs (t + 1) h hc2]
  exact foldl_max_take_mono cs (cs.headD 0) t

lemma length_drawdown (cs : List ℚ) : (drawdown cs).length = cs.length := by
  simp [drawdown, List.length_zipWith, length_cummax]

lemma drawdown_getElem (cs : List ℚ) (t : ℕ) (h : t < cs.length)
    (hd : t < (drawdown cs).length) (hc : t < (cummax cs).length) :
    (drawdown cs)[t] = (cs[t] / (cummax cs)[t] - 1) * 100 := by
  simp only [drawdown]
  rw [List.getElem_zipWith]

lemma length_gain (cs : List ℚ) : (gain cs).length = cs.length := by
  simp [gain, length_priceDelta]

lemma length_loss (cs : List ℚ) : (loss cs).length = cs.length := by
  simp [loss, length_priceDelta]

lemma gain_nonneg (cs : List ℚ) : ∀ x ∈ gain cs, 0 ≤ x := by
  intro x hx
  simp only [gain, List.mem_map] at hx
  obtain ⟨d, _, rfl⟩ := hx
  cases d with
  | none => exact le_refl 0
  | some v =>
    show 0 ≤ if 0 < v then v else 0
    rcases lt_or_ge 0 v with hv | hv
    · rw [if_pos hv]
      exact le_of_lt hv
    · rw [if_neg (not_lt.mpr hv)]

lemma loss_nonneg (cs : List ℚ) : ∀ x ∈ loss cs, 0 ≤ x := by
  intro x hx
  simp only [loss, List.mem_map] at hx
  obtain ⟨d, _, rfl⟩ := hx
  cases d with
  | none => exact le_refl 0
  | some v =>
    show 0 ≤ if v < 0 then -v else 0
    rcases lt_or_ge v 0 with hv | hv
    · rw [if_pos hv]
      linarith
    · rw [if_neg (not_lt.mpr hv)]

lemma length_rollingMean (n : ℕ) (xs : List ℚ) :
    (rollingMean n xs).length = xs.length := by
  simp [rollingMean]

lemma rollingMean_getElem (n : ℕ) (xs : List ℚ) (t : ℕ) (h : t < xs.length)
    (hr : t < (rollingMean n xs).length) :
    (rollingMean n xs)[t] =
      if n ≤ t + 1 then some ((((xs.take (t + 1)).drop (t + 1 - n)).sum) / (n : ℚ))
      else none := by
  simp [rollingMean]

lemma rollingMean_getD_defined (n : ℕ) (xs : List ℚ) (t : ℕ) (h : t < xs.length)
    (hn : n ≤ t + 1) :
    (rollingMean n xs).getD t none =
      some ((((xs.take (t + 1)).drop (t + 1 - n)).sum) / (n : ℚ)) := by
  have ht : t < (rollingMean n xs).length := by rw [length_rollingMean]; exact h
  rw [List.getD_eq_getElem _ _ ht, rollingMean_getElem n xs t h ht, if_pos hn]

lemma rollingMean_getD_undefined (n : ℕ) (xs : List ℚ) (t : ℕ) (hn : t + 1 < n) :
    (rollingMean n xs).getD t none = none := by
  by_cases ht : t < (rollingMean n xs).length
  · rw [List.getD_eq_getElem _ _ ht,
      rollingMean_getElem n xs t (by rw [← length_rollingMean n xs]; exact ht) ht,
      if_neg (by omega)]
  · exact List.getD_eq_default _ _ (by omega)

lemma rollingMean_getD_nonneg (n : ℕ) (xs : List ℚ) (hx : ∀ x ∈ xs, 0 ≤ x) (t : ℕ)
    (m : ℚ) (hm : (rollingMean n xs).getD t none = some m) : 0 ≤ m := by
  by_cases ht : t < (rollingMean n xs).length
  · rw [List.getD_eq_getElem _ _ ht,
      rollingMean_getElem n xs t (by rw [← length_rollingMean n xs]; exact ht) ht] at hm
    by_cases hn : n ≤ t + 1
    · rw [if_pos hn, Option.some.injEq] at hm
      rw [← hm]
      refine div_nonneg (List.sum_nonneg ?_) (by positivity)
      intro x hxmem
      exact hx x (List.mem_of_mem_take (List.mem_of_mem_drop hxmem))
    · rw [if_neg hn] at hm
      exact absurd hm (by simp)
  · rw [List.getD_eq_default _ _ (by omega)] at hm
    exact absurd hm (by simp)

lemma length_avgGain (cs : List ℚ) : (avgGain cs).length = cs.length := by
  simp [avgGain, length_rollingMean, length_gain]

lemma length_avgLoss (cs : List ℚ) : (avgLoss cs).length = cs.length := by
  simp [avgLoss, length_rollingMean, length_loss]

lemma length_rsi (cs : List ℚ) : (rsi cs).length = cs.length := by
  simp [rsi, List.length_zipWith, length_avgGain, length_avgLoss]

lemma rsi_getElem (cs : List ℚ) (t : ℕ) (hr : t < (rsi cs).length)
    (hg : t < (avgGain cs).length) (hl : t < (avgLoss cs).length) :
    (rsi cs)[t] = rsiCell (avgGain cs)[t] (avgLoss cs)[t] := by
  simp only [rsi]
  rw [List.getElem_zipWith]

lemma cumulativeReturnPct_getD (cs : List ℚ) (t : ℕ) :
    (cumulativeReturnPct cs).getD t none =
      ((cumulativeReturn cs).getD t none).map (fun v => v * 100) := by
  by_cases ht : t < (cumulativeReturn cs).length
  · have htp : t < (cumulativeReturnPct cs).length := by
      rw [length_cumulativeReturnPct, ← length_cumulativeReturn cs]
      exact ht
    rw [List.getD_eq_getElem _ _ htp, List.getD_eq_getElem _ _ ht]
    show ((cumulativeReturn cs).map (Option.map fun v => v * 100))[t] = _
    rw [List.getElem_map]
  · have hlen : (cumulativeReturn cs).length ≤ t := by omega
    have hlenp : (cumulativeReturnPct cs).length ≤ t := by
      rw [length_cumulativeReturnPct]
      rw [length_cumulativeReturn] at hlen
      exact hlen
    rw [List.getD_eq_default _ _ hlenp, List.getD_eq_default _ _ hlen]
    rfl

lemma count_true_map_eq_countP {α : Type} (l : List α) (p : α → Bool) :
    (l.map p).count true = l.countP p := by
  induction l with
  | nil => rfl
  | cons a rest ih => simp [List.count_cons, List.countP_cons, ih]

/-! ### The claims -/

/-- C1: for a PriceSeries with at least one row and positive closes,
`calculate_metrics` sets `daily_return[t] = (close[t] / close[t-1] - 1) * 100`
for every row `t ≥ 1`, and `daily_return[0]` carries the explicit undefined
marker (NaN, here `none`), not a number. -/
theorem daily_return_formula (dates : List ℤ) (cs : List ℚ)
    (hpos : ∀ x ∈ cs, 0 < x) (hne : cs ≠ []) :
    (enrich dates cs).daily_return.getD 0 none = none ∧
    ∀ t, 1 ≤ t → t < cs.length →
      (enrich dates cs).daily_return.getD t none =
        some ((cs.getD t 0 / cs.getD (t - 1) 0 - 1) * 100) := by
  constructor
  · have h0 : 0 < (dailyReturn cs).length := by
      rw [length_dailyReturn]
      exact List.length_pos.mpr hne
    show (dailyReturn cs).getD 0 none = none
    rw [List.getD_eq_getElem _ _ h0, dailyReturn_getElem_zero cs h0]
  · intro t ht1 ht
    obtain ⟨s, rfl⟩ : ∃ s, t = s + 1 := ⟨t - 1, by omega⟩
    have hd : s + 1 < (dailyReturn cs).length := by
      rw [length_dailyReturn]
      exact ht
    show (dailyReturn cs).getD (s + 1) none = _
    rw [List.getD_eq_getElem _ _ hd, dailyReturn_getElem_succ cs s ht hd,
      Nat.add_sub_cancel, List.getD_eq_getElem _ _ ht,
      List.getD_eq_getElem _ _ (show s < cs.length by omega)]

/-- Witness for C1 at the 2-row series with closes 100, 110. -/
theorem daily_return_formula_check :
    (enrich [0, 1] [100, 110]).daily_return.getD 0 none = none ∧
    (enrich [0, 1] [100, 110]).daily_return.getD 1 none =
      some ((([100, 110] : List ℚ).getD 1 0 / ([100, 110] : List ℚ).getD 0 0 - 1) * 100) :=
  ⟨(daily_return_formula [0, 1] [100, 110] (by decide) (by decide)).1,
   (daily_return_formula [0, 1] [100, 110] (by decide) (by decide)).2 1 (by decide) (by decide)⟩

/-- C2: for positive closes and every `t ≥ 1`, the `cumulative_return_pct`
column (built as a running product of `1 + daily_return / 100`) equals the
total return recomputed directly from the raw close series,
`(close[t] / close[0] - 1) * 100`, exactly over exact arithmetic. -/
theorem cumulative_return_matches_total (dates : List ℤ) (cs : List ℚ)
    (hpos : ∀ x ∈ cs, 0 < x) (t : ℕ) (ht1 : 1 ≤ t) (ht : t < cs.length) :
    (enrich dates cs).cumulative_return_pct.getD t none =
      some ((cs.getD t 0 / cs.getD 0 0 - 1) * 100) := by
  obtain ⟨s, rfl⟩ : ∃ s, t = s + 1 := ⟨t - 1, by omega⟩
  have hb : s + 1 < (cumulativeReturn cs).length := by
    rw [length_cumulativeReturn]
    exact ht
  show (cumulativeReturnPct cs).getD (s + 1) none = _
  rw [cumulativeReturnPct_getD, List.getD_eq_getElem _ _ hb,
    cumulativeReturn_getElem_succ_value cs hpos s ht hb]
  rfl

/-- Witness for C2 at the 2-row series with closes 100, 110, row 1. -/
theorem cumulative_return_matches_total_check :
    (enrich [0, 1] [100, 110]).cumulative_return_pct.getD 1 none =
      some ((([100, 110] : List ℚ).getD 1 0 / ([100, 110] : List ℚ).getD 0 0 - 1) * 100) :=
  cumulative_return_matches_total [0, 1] [100, 110] (by decide) 1 (by decide) (by decide)

/-- C9 (implicit): pandas `cumprod` skips the NaN first return, treating it
as the multiplicative identity: `cumulative_return[0]` stays undefined, and
for `t ≥ 1` the cell is the product of `1 + daily_return[i] / 100` over
`i = 1..t` minus 1, with `cumulative_return_pct` the cell-wise `× 100`. -/
theorem cumulative_return_nan_identity (dates : List ℤ) (cs : List ℚ)
    (hpos : ∀ x ∈ cs, 0 < x) (hne : cs ≠ []) :
    (enrich dates cs).cumulative_return.getD 0 none = none ∧
    (enrich dates cs).cumulative_return_pct.getD 0 none = none ∧
    (∀ t, 1 ≤ t → t < cs.length →
      (enrich dates cs).cumulative_return.getD t none =
        some ((∏ i ∈ Finset.range t,
          (1 + ((enrich dates cs).daily_return.getD (i + 1) none).getD 0 / 100)) - 1)) ∧
    (∀ t, (enrich dates cs).cumulative_return_pct.getD t none =
      ((enrich dates cs).cumulative_return.getD t none).map (fun v => v * 100)) := by
  have h0 : 0 < (cumulativeReturn cs).length := by
    rw [length_cumulativeReturn]
    exact List.length_pos.mpr hne
  have hz : (cumulativeReturn cs).getD 0 none = none := by
    rw [List.getD_eq_getElem _ _ h0, cumulativeReturn_getElem_zero cs h0]
  refine ⟨hz, ?_, ?_, ?_⟩
  · show (cumulativeReturnPct cs).getD 0 none = none
    rw [cumulativeReturnPct_getD, hz]
    rfl
  · intro t ht1 ht
    obtain ⟨s, rfl⟩ : ∃ s, t = s + 1 := ⟨t - 1, by omega⟩
    have hb : s + 1 < (cumulativeReturn cs).length := by
      rw [length_cumulativeReturn]
      exact ht
    show (cumulativeReturn cs).getD (s + 1) none = _
    rw [List.getD_eq_getElem _ _ hb, cumulativeReturn_getElem_succ cs s ht hb]
    refine congrArg some ?_
    refine congrArg (fun z => z - 1) ?_
    rw [take_prod_eq_prod_range _ (s + 1) (by
      simp only [List.length_map, List.length_zipWith, List.length_tail]
      omega)]
    refine Finset.prod_congr rfl ?_
    intro i hi
    have hi2 : i + 1 < cs.length := by
      have := Finset.mem_range.mp hi
      omega
    exact mapped_ratio_getD cs i hi2
  · intro t
    exact cumulativeReturnPct_getD cs t

/-- Witness for C9 at the 2-row series with closes 100, 110. -/
theorem cumulative_return_nan_identity_check :
    (enrich [0, 1] [100, 110]).cumulative_return.getD 0 none = none ∧
    (enrich [0, 1] [100, 110]).cumulative_return_pct.getD 0 none = none ∧
    (enrich [0, 1] [100, 110]).cumulative_return.getD 1 none =
      some ((∏ i ∈ Finset.range 1,
        (1 + ((enrich [0, 1] [100, 110]).daily_return.getD (i + 1) none).getD 0 / 100)) - 1) ∧
    (enrich [0, 1] [100, 110]).cumulative_return_pct.getD 1 none =
      ((enrich [0, 1] [100, 110]).cumulative_return.getD 1 none).map (fun v => v * 100) := by
  obtain ⟨h1, h2, h3, h4⟩ :=
    cumulative_return_nan_identity [0, 1] [100, 110] (by decide) (by decide)
  exact ⟨h1, h2, h3 1 (by decide) (by decide), h4 1⟩

/-- C4: `peak[t]` is the running maximum of `close` over rows `0..t`
inclusive (hence monotone non-decreasing), `drawdown[t] =
(close[t] / peak[t] - 1) * 100`, `drawdown[t] ≤ 0`, and both columns are
defined at every row from 0 onward (they are total, NaN-free columns of
the same length as the input). -/
theorem peak_drawdown_props (dates : List ℤ) (cs : List ℚ) (hpos : ∀ x ∈ cs, 0 < x)
    (t : ℕ) (ht : t < cs.length) :
    (enrich dates cs).peak.length = cs.length ∧
    (enrich dates cs).drawdown.length = cs.length ∧
    (enrich dates cs).peak.getD t 0 ∈ cs.take (t + 1) ∧
    (∀ x ∈ cs.take (t + 1), x ≤ (enrich dates cs).peak.getD t 0) ∧
    (t + 1 < cs.length →
      (enrich dates cs).peak.getD t 0 ≤ (enrich dates cs).peak.getD (t + 1) 0) ∧
    (enrich dates cs).drawdown.getD t 0 =
      (cs.getD t 0 / (enrich dates cs).peak.getD t 0 - 1) * 100 ∧
    (enrich dates cs).drawdown.getD t 0 ≤ 0 := by
  have hc : t < (cummax cs).length := by
    rw [length_cummax]
    exact ht
  have hd : t < (drawdown cs).length := by
    rw [length_drawdown]
    exact ht
  have hpeakD : (enrich dates cs).peak.getD t 0 = (cummax cs)[t] :=
    List.getD_eq_getElem _ _ hc
  have hmem : (cummax cs)[t] ∈ cs.take (t + 1) := cummax_mem cs t ht hc
  have hub := cummax_is_ub cs t ht hc
  have hpeakpos : 0 < (cummax cs)[t] := hpos _ (List.mem_of_mem_take hmem)
  have htk : t < (cs.take (t + 1)).length := by
    simp only [List.length_take]
    omega
  have hclosemem : cs[t] ∈ cs.take (t + 1) := by
    have hgt : (cs.take (t + 1))[t] = cs[t] := List.getElem_take ..
    rw [← hgt]
    exact List.getElem_mem htk
  have hclosele : cs[t] ≤ (cummax cs)[t] := hub cs[t] hclosemem
  have hdval : (drawdown cs)[t] = (cs[t] / (cummax cs)[t] - 1) * 100 :=
    drawdown_getElem cs t ht hd hc
  have hq : cs[t] / (cummax cs)[t] ≤ 1 := (div_le_one hpeakpos).mpr hclosele
  have hddD : (enrich dates cs).drawdown.getD t 0 = (drawdown cs)[t] :=
    List.getD_eq_getElem _ _ hd
  refine ⟨length_cummax cs, length_drawdown cs, ?_, ?_, ?_, ?_, ?_⟩
  · rw [hpeakD]
    exact hmem
  · rw [hpeakD]
    exact hub
  · intro h2
    have hc2 : t + 1 < (cummax cs).length := by
      rw [length_cummax]
      exact h2
    have hpeakD2 : (enrich dates cs).peak.getD (t + 1) 0 = (cummax cs)[t + 1] :=
      List.getD_eq_getElem _ _ hc2
    rw [hpeakD, hpeakD2]
    exact cummax_mono cs t h2 hc hc2
  · rw [hpeakD, hddD, List.getD_eq_getElem _ _ ht]
    exact hdval
  · rw [hddD, hdval]
    nlinarith

/-- Witness for C4 at the 3-row series with closes 100, 110, 99, row 2
(binder-free projections of the conclusion). -/
theorem peak_drawdown_props_check :
    (enrich [0, 1, 2] [100, 110, 99]).peak.getD 2 0 ∈ ([100, 110, 99] : List ℚ).take 3 ∧
    (enrich [0, 1, 2] [100, 110, 99]).drawdown.getD 2 0 =
      (([100, 110, 99] : List ℚ).getD 2 0 /
        (enrich [0, 1, 2] [100, 110, 99]).peak.getD 2 0 - 1) * 100 ∧
    (enrich [0, 1, 2] [100, 110, 99]).drawdown.getD 2 0 ≤ 0 := by
  obtain ⟨_, _, h3, _, _, h6, h7⟩ :=
    peak_drawdown_props [0, 1, 2] [100, 110, 99] (by decide) 2 (by decide)
  exact ⟨h3, h6, h7⟩

/-- C3: at every row where the 14-row trailing average loss is defined and
strictly positive, the `rsi` cell is defined and lies in `[0, 100]`. -/
theorem rsi_bounded (dates : List ℤ) (cs : List ℚ) (t : ℕ) (l : ℚ)
    (hl : (enrich dates cs).avg_loss.getD t none = some l) (hlpos : 0 < l) :
    ((enrich dates cs).rsi.getD t none).isSome = true ∧
    0 ≤ ((enrich dates cs).rsi.getD t none).getD 0 ∧
    ((enrich dates cs).rsi.getD t none).getD 0 ≤ 100 := by
  replace hl : (avgLoss cs).getD t none = some l := hl
  have htl : t < (avgLoss cs).length := by
    by_contra hcon
    rw [List.getD_eq_default _ _ (by omega)] at hl
    exact absurd hl (by simp)
  have htc : t < cs.length := by
    rw [length_avgLoss] at htl
    exact htl
  have htloss : t < (loss cs).length := by
    rw [length_loss]
    exact htc
  have hn : 14 ≤ t + 1 := by
    by_contra hcon
    rw [avgLoss, rollingMean_getD_undefined 14 (loss cs) t (by omega)] at hl
    exact absurd hl (by simp)
  have hlval : (avgLoss cs).getD t none =
      some (((((loss cs).take (t + 1)).drop (t + 1 - 14)).sum) / (14 : ℚ)) :=
    rollingMean_getD_defined 14 (loss cs) t htloss hn
  have hgval : (avgGain cs).getD t none =
      some (((((gain cs).take (t + 1)).drop (t + 1 - 14)).sum) / (14 : ℚ)) :=
    rollingMean_getD_defined 14 (gain cs) t (by rw [length_gain]; exact htc) hn
  set g : ℚ := ((((gain cs).take (t + 1)).drop (t + 1 - 14)).sum) / (14 : ℚ) with hgdef
  have hg0 : 0 ≤ g := rollingMean_getD_nonneg 14 (gain cs) (gain_nonneg cs) t g hgval
  have hlv : l = ((((loss cs).take (t + 1)).drop (t + 1 - 14)).sum) / (14 : ℚ) := by
    rw [hl] at hlval
    exact (Option.some.inj hlval.symm).symm
  have hrt : t < (rsi cs).length := by
    rw [length_rsi]
    exact htc
  have hga : t < (avgGain cs).length := by
    rw [length_avgGain]
    exact htc
  have hcell : (rsi cs).getD t none = rsiCell ((avgGain cs).getD t none) ((avgLoss cs).getD t none) := by
    rw [List.getD_eq_getElem _ _ hrt, rsi_getElem cs t hrt hga htl,
      List.getD_eq_getElem _ _ hga, List.getD_eq_getElem _ _ htl]
  have hval : (rsi cs).getD t none = some (100 - 100 / (1 + g / l)) := by
    rw [hcell, hgval, hl, rsiCell]
    rw [if_neg (ne_of_gt hlpos)]
  have h1 : 0 ≤ g / l := div_nonneg hg0 (le_of_lt hlpos)
  have h2 : (1 : ℚ) ≤ 1 + g / l := by linarith
  have h3 : 100 / (1 + g / l) ≤ 100 := div_le_self (by norm_num) h2
  have h4 : 0 < 100 / (1 + g / l) := by positivity
  refine ⟨?_, ?_, ?_⟩
  · show ((rsi cs).getD t none).isSome = true
    rw [hval]
    rfl
  · show 0 ≤ ((rsi cs).getD t none).getD 0
    rw [hval]
    show 0 ≤ 100 - 100 / (1 + g / l)
    linarith
  · show ((rsi cs).getD t none).getD 0 ≤ 100
    rw [hval]
    show 100 - 100 / (1 + g / l) ≤ 100
    linarith

/-- Witness for C3 at a 14-row strictly decreasing series, row 13. -/
theorem rsi_bounded_check :
    ((enrich [0] [100, 99, 98, 97, 96, 95, 94, 93, 92, 91, 90, 89, 88, 87]).rsi.getD
      13 none).isSome = true ∧
    0 ≤ ((enrich [0] [100, 99, 98, 97, 96, 95, 94, 93, 92, 91, 90, 89, 88, 87]).rsi.getD
      13 none).getD 0 ∧
    ((enrich [0] [100, 99, 98, 97, 96, 95, 94, 93, 92, 91, 90, 89, 88, 87]).rsi.getD
      13 none).getD 0 ≤ 100 :=
  rsi_bounded [0] [100, 99, 98, 97, 96, 95, 94, 93, 92, 91, 90, 89, 88, 87] 13 (13 / 14)
    (by
      show (avgLoss [100, 99, 98, 97, 96, 95, 94, 93, 92, 91, 90, 89, 88, 87]).getD 13 none =
        some (13 / 14)
      rw [avgLoss, rollingMean_getD_defined 14
        (loss [100, 99, 98, 97, 96, 95, 94, 93, 92, 91, 90, 89, 88, 87]) 13
        (by rw [length_loss]; norm_num) (by norm_num)]
      norm_num [loss, priceDelta])
    (by norm_num)

/-- C10 (amended): the undefined row-0 delta is mapped to gain 0 and
loss 0, so for a series of at least 14 rows `avg_gain` and `avg_loss`
first become defined at row 13 (not 14); `rsi` is also defined at row 13
provided `avg_gain[13]` and `avg_loss[13]` are not both zero (a `0 / 0`
ratio is NaN and leaves `rsi[13]` undefined). -/
theorem rsi_window_start (dates : List ℤ) (cs : List ℚ) (hlen : 14 ≤ cs.length) :
    ((enrich dates cs).avg_gain.getD 13 none).isSome = true ∧
    ((enrich dates cs).avg_loss.getD 13 none).isSome = true ∧
    (∀ t < 13, (enrich dates cs).avg_gain.getD t none = none ∧
      (enrich dates cs).avg_loss.getD t none = none ∧
      (enrich dates cs).rsi.getD t none = none) ∧
    (∀ g l, (enrich dates cs).avg_gain.getD 13 none = some g →
      (enrich dates cs).avg_loss.getD 13 none = some l → ¬(g = 0 ∧ l = 0) →
      ((enrich dates cs).rsi.getD 13 none).isSome = true) := by
  have hg13 := rollingMean_getD_defined 14 (gain cs) 13 (by rw [length_gain]; omega)
    (by norm_num)
  have hl13 := rollingMean_getD_defined 14 (loss cs) 13 (by rw [length_loss]; omega)
    (by norm_num)
  refine ⟨?_, ?_, ?_, ?_⟩
  · show ((avgGain cs).getD 13 none).isSome = true
    rw [avgGain, hg13]
    rfl
  · show ((avgLoss cs).getD 13 none).isSome = true
    rw [avgLoss, hl13]
    rfl
  · intro t htlt
    have hgn : (avgGain cs).getD t none = none :=
      rollingMean_getD_undefined 14 (gain cs) t (by omega)
    have hln : (avgLoss cs).getD t none = none :=
      rollingMean_getD_undefined 14 (loss cs) t (by omega)
    refine ⟨hgn, hln, ?_⟩
    show (rsi cs).getD t none = none
    have hrt : t < (rsi cs).length := by
      rw [length_rsi]
      omega
    have hga : t < (avgGain cs).length := by
      rw [length_avgGain]
      omega
    have hla : t < (avgLoss cs).length := by
      rw [length_avgLoss]
      omega
    rw [List.getD_eq_getElem _ _ hrt, rsi_getElem cs t hrt hga hla]
    have hgnone : (avgGain cs)[t] = none := by
      rw [← List.getD_eq_getElem _ _ hga]
      exact hgn
    rw [hgnone]
    rfl
  · intro g l hg hl hne
    have hrt : (13 : ℕ) < (rsi cs).length := by
      rw [length_rsi]
      omega
    have hga : (13 : ℕ) < (avgGain cs).length := by
      rw [length_avgGain]
      omega
    have hla : (13 : ℕ) < (avgLoss cs).length := by
      rw [length_avgLoss]
      omega
    show ((rsi cs).getD 13 none).isSome = true
    rw [List.getD_eq_getElem _ _ hrt, rsi_getElem cs 13 hrt hga hla]
    have hg2 : (avgGain cs)[13] = some g := by
      rw [← List.getD_eq_getElem _ _ hga]
      exact hg
    have hl2 : (avgLoss cs)[13] = some l := by
      rw [← List.getD_eq_getElem _ _ hla]
      exact hl
    rw [hg2, hl2]
    by_cases hl0 : l = 0
    · have hg0 : ¬ g = 0 := fun hgz => hne ⟨hgz, hl0⟩
      simp [rsiCell, hl0, hg0]
    · simp [rsiCell, hl0]

set_option maxHeartbeats 2000000 in
/-- Counterexample for C10 as stated: on the constant 14-row series both
rolling averages at row 13 are zero, the `0 / 0` ratio is NaN, and `rsi`
is still undefined at row 13. -/
theorem rsi_window_start_cex :
    14 ≤ ([100, 100, 100, 100, 100, 100, 100, 100, 100, 100, 100, 100, 100, 100] :
      List ℚ).length ∧
    (enrich [0] [100, 100, 100, 100, 100, 100, 100, 100, 100, 100, 100, 100, 100, 100]).rsi.getD
      13 none = none := by
  refine ⟨by norm_num, ?_⟩
  show (rsi [100, 100, 100, 100, 100, 100, 100, 100, 100, 100, 100, 100, 100, 100]).getD
    13 none = none
  have hga : (avgGain [100, 100, 100, 100, 100, 100, 100, 100, 100, 100, 100, 100, 100, 100]).getD
      13 none = some 0 := by
    rw [avgGain, rollingMean_getD_defined 14
      (gain [100, 100, 100, 100, 100, 100, 100, 100, 100, 100, 100, 100, 100, 100]) 13
      (by rw [length_gain]; norm_num) (by norm_num)]
    norm_num [gain, priceDelta]
  have hla : (avgLoss [100, 100, 100, 100, 100, 100, 100, 100, 100, 100, 100, 100, 100, 100]).getD
      13 none = some 0 := by
    rw [avgLoss, rollingMean_getD_defined 14
      (loss [100, 100, 100, 100, 100, 100, 100, 100, 100, 100, 100, 100, 100, 100]) 13
      (by rw [length_loss]; norm_num) (by norm_num)]
    norm_num [loss, priceDelta]
  have hrt : (13 : ℕ) < (rsi [100, 100, 100, 100, 100, 100, 100, 100, 100, 100, 100, 100, 100, 100]).length := by
    rw [length_rsi]
    norm_num
  have hga2 : (13 : ℕ) < (avgGain [100, 100, 100, 100, 100, 100, 100, 100, 100, 100, 100, 100, 100, 100]).length := by
    rw [length_avgGain]
    norm_num
  have hla2 : (13 : ℕ) < (avgLoss [100, 100, 100, 100, 100, 100, 100, 100, 100, 100, 100, 100, 100, 100]).length := by
    rw [length_avgLoss]
    norm_num
  rw [List.getD_eq_getElem _ _ hrt,
    rsi_getElem [100, 100, 100, 100, 100, 100, 100, 100, 100, 100, 100, 100, 100, 100] 13 hrt hga2 hla2]
  have hg3 : (avgGain [100, 100, 100, 100, 100, 100, 100, 100, 100, 100, 100, 100, 100, 100])[13] = some 0 := by
    rw [← List.getD_eq_getElem _ _ hga2]
    exact hga
  have hl3 : (avgLoss [100, 100, 100, 100, 100, 100, 100, 100, 100, 100, 100, 100, 100, 100])[13] = some 0 := by
    rw [← List.getD_eq_getElem _ _ hla2]
    exact hla
  rw [hg3, hl3]
  rfl

/-- Counterexample for C5 as stated: on the 2-row series with closes
100, 110 the spec formula (defined returns only in the denominator) gives
100, but the code divides by the total row count and returns 50. -/
theorem positive_days_denominator_cex :
    specPositiveDaysPct (dailyReturn [100, 110]) = 100 ∧
    positiveDaysPct (dailyReturn [100, 110]) = 50 ∧
    positiveDaysPct (dailyReturn [100, 110]) ≠ specPositiveDaysPct (dailyReturn [100, 110]) := by
  have hdr : dailyReturn [100, 110] = [none, some 10] := by
    norm_num [dailyReturn]
  have h1 : specPositiveDaysPct (dailyReturn [100, 110]) = 100 := by
    rw [hdr]
    norm_num [specPositiveDaysPct, List.countP_cons]
  have h2 : positiveDaysPct (dailyReturn [100, 110]) = 50 := by
    rw [hdr]
    norm_num [positiveDaysPct, List.count_cons]
  refine ⟨h1, h2, ?_⟩
  rw [h1, h2]
  norm_num

/-- C5 (amended): `generate_summary_statistics` computes the positive-days
percentage as the count of strictly positive (hence defined) daily-return
cells divided by the TOTAL row count — the undefined row-0 cell stays in
the denominator — times 100. -/
theorem positive_days_total_rows (dates : List ℤ) (cs : List ℚ) (hd : dates ≠ [])
    (hspan : elapsedDays (enrich dates cs) ≠ 0) :
    (generate_summary_statistics (enrich dates cs)).map (fun r => r.positive_days_pct) =
      .ok (((((dailyReturn cs).countP fun d =>
        match d with
        | some v => decide (0 < v)
        | none => false) : ℕ) : ℚ) / (cs.length : ℚ) * 100) := by
  have hA : ¬((enrich dates cs).dates = []) := hd
  unfold generate_summary_statistics
  rw [if_neg hA, if_neg hspan]
  show Except.ok (positiveDaysPct (dailyReturn cs)) = _
  rw [positiveDaysPct, count_true_map_eq_countP, length_dailyReturn]

/-- Witness for C5 at the 2-row series with closes 100, 110. -/
theorem positive_days_total_rows_check :
    (generate_summary_statistics (enrich [0, 1] [100, 110])).map
        (fun r => r.positive_days_pct) =
      .ok (((((dailyReturn [100, 110]).countP fun d =>
        match d with
        | some v => decide (0 < v)
        | none => false) : ℕ) : ℚ) / (([100, 110] : List ℚ).length : ℚ) * 100) :=
  positive_days_total_rows [0, 1] [100, 110] (by decide) (by decide)

/-- C6: with a non-zero calendar span between the first and last index
entries, `generate_summary_statistics` returns a report whose annualized
return is `((1 + total_return/100) ** (365/elapsed_days) - 1) * 100` with
`total_return = (close[-1]/close[0] - 1) * 100`; with a zero span the
computation fails with the division-by-zero error and returns no report. -/
theorem annualized_return_formula (df : EnrichedFrame) :
    (df.dates ≠ [] → elapsedDays df ≠ 0 →
      (generate_summary_statistics df).map (fun r => r.annualized_return_pct) =
        .ok (((1 + (((df.close.getLastD 0 / df.close.headD 0 - 1) * 100 : ℚ) : ℝ) / 100) ^
          ((365 : ℝ) / (elapsedDays df : ℝ)) - 1) * 100)) ∧
    (df.dates ≠ [] → elapsedDays df = 0 →
      generate_summary_statistics df = .error "ZeroDivisionError: division by zero") := by
  constructor
  · intro h1 h2
    unfold generate_summary_statistics
    rw [if_neg h1, if_neg h2]
    rfl
  · intro h1 h2
    unfold generate_summary_statistics
    rw [if_neg h1, if_pos h2]

/-- Witness for C6: a 2-row series one day apart (formula case) and a
2-row series on the same date (division-by-zero case). -/
theorem annualized_return_formula_check :
    (generate_summary_statistics (enrich [0, 1] [100, 102])).map
        (fun r => r.annualized_return_pct) =
      .ok (((1 + ((((enrich [0, 1] [100, 102]).close.getLastD 0 /
            (enrich [0, 1] [100, 102]).close.headD 0 - 1) * 100 : ℚ) : ℝ) / 100) ^
        ((365 : ℝ) / (elapsedDays (enrich [0, 1] [100, 102]) : ℝ)) - 1) * 100) ∧
    generate_summary_statistics (enrich [5, 5] [100, 102]) =
      .error "ZeroDivisionError: division by zero" :=
  ⟨(annualized_return_formula (enrich [0, 1] [100, 102])).1 (by decide) (by decide),
   (annualized_return_formula (enrich [5, 5] [100, 102])).2 (by decide) (by decide)⟩

/-- C7 (amended): `calculate_metrics` fails fast exactly when the input
frame is missing its `close` column; the date index is never inspected,
so a non-monotonic or duplicate index still yields a normally-computed
result. -/
theorem missing_close_only_failure (df : RawFrame) :
    (calculate_metrics df).isOk = df.closeCol.isSome ∧
    (df.closeCol = none → calculate_metrics df = .error "KeyError: close") := by
  cases df with
  | mk dates closeCol =>
    cases closeCol with
    | none => exact ⟨rfl, fun _ => rfl⟩
    | some cs => exact ⟨rfl, fun h => absurd h (by simp)⟩

/-- Witness for C7 at a frame carrying a close column and one missing
it. -/
theorem missing_close_only_failure_check :
    (calculate_metrics { dates := [0, 1], closeCol := some [100, 110] }).isOk = true ∧
    calculate_metrics { dates := [0, 1], closeCol := none } = .error "KeyError: close" :=
  ⟨(missing_close_only_failure { dates := [0, 1], closeCol := some [100, 110] }).1,
   (missing_close_only_failure { dates := [0, 1], closeCol := none }).2 rfl⟩

/-- Counterexample for C7 as stated: a decreasing index and a duplicate
index both pass through `calculate_metrics` without any error. -/
theorem index_not_validated_cex :
    ¬ List.Chain' (· < ·) ([1, 0] : List ℤ) ∧
    (calculate_metrics { dates := [1, 0], closeCol := some [100, 110] }).isOk = true ∧
    ¬ List.Chain' (· < ·) ([0, 0] : List ℤ) ∧
    (calculate_metrics { dates := [0, 0], closeCol := some [100, 110] }).isOk = true := by
  refine ⟨?_, rfl, ?_, rfl⟩
  · rw [List.chain'_pair]
    omega
  · rw [List.chain'_pair]
    omega

/-- C8: `calculate_metrics` is a pure function of the two observable
components of its input frame — equal inputs give equal (bit-identical)
outputs, with no dependence on hidden state, I/O, or randomness (the
embedding is total and effect-free by construction, mirroring the code,
which touches nothing outside its argument). -/
theorem pipeline_deterministic (df₁ df₂ : RawFrame) (hdates : df₁.dates = df₂.dates)
    (hclose : df₁.closeCol = df₂.closeCol) :
    calculate_metrics df₁ = calculate_metrics df₂ := by
  cases df₁ with
  | mk d₁ c₁ =>
    cases df₂ with
    | mk d₂ c₂ =>
      have h1 : d₁ = d₂ := hdates
      have h2 : c₁ = c₂ := hclose
      subst h1
      subst h2
      rfl

/-- Witness for C8: two invocations on the same concrete frame agree. -/
theorem pipeline_deterministic_check :
    calculate_metrics { dates := [0, 1], closeCol := some [100, 110] } =
      calculate_metrics { dates := [0, 1], closeCol := some [100, 110] } :=
  pipeline_deterministic { dates := [0, 1], closeCol := some [100, 110] }
    { dates := [0, 1], closeCol := some [100, 110] } rfl rfl

/-- Witness for the amended C10 at the 14-row strictly decreasing series:
both averages and `rsi` are defined at row 13. -/
theorem rsi_window_start_check :
    ((enrich [0] [100, 99, 98, 97, 96, 95, 94, 93, 92, 91, 90, 89, 88, 87]).avg_gain.getD
      13 none).isSome = true ∧
    ((enrich [0] [100, 99, 98, 97, 96, 95, 94, 93, 92, 91, 90, 89, 88, 87]).avg_loss.getD
      13 none).isSome = true ∧
    ((enrich [0] [100, 99, 98, 97, 96, 95, 94, 93, 92, 91, 90, 89, 88, 87]).rsi.getD
      13 none).isSome = true := by
  obtain ⟨h1, h2, _, h4⟩ :=
    rsi_window_start [0] [100, 99, 98, 97, 96, 95, 94, 93, 92, 91, 90, 89, 88, 87]
      (by norm_num)
  refine ⟨h1, h2, h4 0 (13 / 14) ?_ ?_ (by norm_num)⟩
  · show (avgGain [100, 99, 98, 97, 96, 95, 94, 93, 92, 91, 90, 89, 88, 87]).getD 13 none =
      some 0
    rw [avgGain, rollingMean_getD_defined 14
      (gain [100, 99, 98, 97, 96, 95, 94, 93, 92, 91, 90, 89, 88, 87]) 13
      (by rw [length_gain]; norm_num) (by norm_num)]
    norm_num [gain, priceDelta]
  · show (avgLoss [100, 99, 98, 97, 96, 95, 94, 93, 92, 91, 90, 89, 88, 87]).getD 13 none =
      some (13 / 14)
    rw [avgLoss, rollingMean_getD_defined 14
      (loss [100, 99, 98, 97, 96, 95, 94, 93, 92, 91, 90, 89, 88, 87]) 13
      (by rw [length_loss]; norm_num) (by norm_num)]
    norm_num [loss, priceDelta]
